import Mathlib

/-!
Verification of the agendabanda day-itinerary recomputation engine.

The definitions below are a shallow embedding of the Python sources:
  * src/app/events_router.py   (recalc_logistics endpoint and its helpers)
  * src/logistics_router.py    (day_logistics read path and alert derivation)
  * src/app/maps_service.py    (compute_route_minutes_km numeric core)
  * src/firebase_admin_client.py (verify_bearer_token)
Machine floats are modelled by exact rationals; Python exceptions by
`Except`; Firestore documents by explicit structures with `Option` fields.
-/

namespace AgendaBanda

/-! ## Python primitives -/

/-- Python exception classes that the recalc handler discriminates:
`ValueError` (mapped to HTTP 401) versus everything else (mapped to 500). -/
inductive PyErr where
  | valueErr (msg : String)
  | otherErr (msg : String)
deriving DecidableEq, Repr

instance {ε α : Type} [DecidableEq ε] [DecidableEq α] : DecidableEq (Except ε α)
  | .error e, .error f =>
    if h : e = f then .isTrue (congrArg Except.error h)
    else .isFalse (fun hh => h (Except.error.inj hh))
  | .error _, .ok _ => .isFalse (fun hh => Except.noConfusion hh)
  | .ok _, .error _ => .isFalse (fun hh => Except.noConfusion hh)
  | .ok x, .ok y =>
    if h : x = y then .isTrue (congrArg Except.ok h)
    else .isFalse (fun hh => h (Except.ok.inj hh))

/-- Value of a run of characters as a decimal number, if all are digits
and the run is nonempty. -/
def digitsVal (l : List Char) : Option ℕ :=
  if l = [] then none
  else l.foldl
    (fun acc c => match acc with
      | none => none
      | some n => if c.isDigit then some (n * 10 + (c.toNat - 48)) else none)
    (some 0)

/-- Python `int(str)`: an optional sign followed by at least one digit
(whitespace and underscore forms are outside the model); raises
`ValueError` otherwise. -/
def pyInt (l : List Char) : Except PyErr ℤ :=
  match l with
  | '-' :: rest =>
    match digitsVal rest with
    | some n => .ok (-(n : ℤ))
    | none => .error (.valueErr "invalid literal for int() with base 10")
  | '+' :: rest =>
    match digitsVal rest with
    | some n => .ok (n : ℤ)
    | none => .error (.valueErr "invalid literal for int() with base 10")
  | _ =>
    match digitsVal l with
    | some n => .ok (n : ℤ)
    | none => .error (.valueErr "invalid literal for int() with base 10")

/-- Python `s.split(sep)` for a one-character separator. -/
def splitOnChar (sep : Char) : List Char → List (List Char)
  | [] => [[]]
  | c :: cs =>
    let r := splitOnChar sep cs
    if c = sep then [] :: r
    else
      match r with
      | [] => [[c]]
      | h :: t => (c :: h) :: t

/-- Python `s.split(" ", 1)`: split at the first space only. -/
def splitFirstSpace : List Char → List (List Char)
  | [] => [[]]
  | c :: cs =>
    if c = ' ' then [[], cs]
    else
      match splitFirstSpace cs with
      | [] => [[c]]
      | h :: t => (c :: h) :: t

/-! ## Time Parser (src/app/events_router.py lines 12-20; the identical
`parse_hhmm` closure in src/logistics_router.py lines 25-29) -/

/-- `_parse_hhmm`: minutes since 00:00.  The empty string and strings that
do not split into exactly two parts on `:` yield 0; otherwise both parts go
through Python `int`, whose `ValueError` propagates uncaught. -/
def _parse_hhmm (s : List Char) : Except PyErr ℤ :=
  if s = [] then .ok 0
  else
    match splitOnChar ':' s with
    | [p0, p1] => do
      let h ← pyInt p0
      let m ← pyInt p1
      .ok (h * 60 + m)
    | _ => .ok 0

/-- String-level wrapper of `_parse_hhmm`. -/
def parse_hhmm (s : String) : Except PyErr ℤ :=
  _parse_hhmm s.data

/-! ## Data model (Firestore documents as structures) -/

/-- The JSON value stored in an event's `order` field: absent, an
int-coercible number, or a value on which Python `int()` raises. -/
inductive OrderField where
  | absent
  | num (n : ℤ)
  | bad
deriving DecidableEq, Repr

/-- `int(e.get("order", 999999))` as used in the sort key
(src/app/events_router.py line 41, src/logistics_router.py line 38). -/
def orderKey : OrderField → Except PyErr ℤ
  | .absent => .ok 999999
  | .num n => .ok n
  | .bad => .error (.valueErr "invalid literal for int() with base 10")

/-- The per-event `logistics` sub-record; `none` on `error` means the key is
absent from the written document. -/
structure Logistics where
  toNextKm : Option ℚ
  toNextMinutes : Option ℤ
  toNextVenueId : Option String
  toNextUpdatedAt : Option String
  error : Option String
deriving DecidableEq, Repr

/-- A venue document, over the keys the routers read. -/
structure Venue where
  name : Option String
  address : Option String
  lat : Option ℚ
  lng : Option ℚ
deriving DecidableEq, Repr

/-- Python dict truthiness of a venue document over the modelled keys
(an empty document is falsy). -/
def Venue.truthy (v : Venue) : Bool :=
  v.name.isSome || v.address.isSome || v.lat.isSome || v.lng.isSome

/-- An event document (plus its Firestore id). -/
structure Event where
  id : String
  date : Option String
  title : Option String
  status : Option String
  startTime : Option String
  endTime : Option String
  order : OrderField
  venueId : Option String
  bandId : Option String
  logistics : Option Logistics
deriving DecidableEq, Repr

/-! ## Event Ordering Policy (events_router.py line 41, logistics_router.py
line 38): `events.sort(key=lambda e: (_parse_hhmm(e.get("startTime","")),
int(e.get("order", 999999))))` -/

/-- The sort key of one event; `int()` failures on either component raise. -/
def keyOf (e : Event) : Except PyErr (ℤ × ℤ) := do
  let t ← parse_hhmm (e.startTime.getD "")
  let o ← orderKey e.order
  .ok (t, o)

/-- Python tuple comparison `(t, o) <= (t', o')`, lexicographic. -/
abbrev tupLe (a b : ℤ × ℤ) : Prop :=
  a.1 < b.1 ∨ (a.1 = b.1 ∧ a.2 ≤ b.2)

/-- Ordering on key-decorated events, comparing the precomputed keys
(Python's `list.sort(key=...)` computes every key first, then sorts by the
keys with a stable sort). -/
def keyedLe (a b : (ℤ × ℤ) × Event) : Prop := tupLe a.1 b.1

instance : DecidableRel keyedLe := fun a b =>
  inferInstanceAs (Decidable (tupLe a.1 b.1))

instance : IsTotal ((ℤ × ℤ) × Event) keyedLe :=
  ⟨by
    intro a b
    unfold keyedLe tupLe
    rcases lt_trichotomy a.1.1 b.1.1 with h | h | h
    · exact Or.inl (Or.inl h)
    · rcases le_total a.1.2 b.1.2 with h2 | h2
      · exact Or.inl (Or.inr ⟨h, h2⟩)
      · exact Or.inr (Or.inr ⟨h.symm, h2⟩)
    · exact Or.inr (Or.inl h)⟩

instance : IsTrans ((ℤ × ℤ) × Event) keyedLe :=
  ⟨by
    intro a b c hab hbc
    unfold keyedLe tupLe at *
    rcases hab with h1 | ⟨h1, h1'⟩ <;> rcases hbc with h2 | ⟨h2, h2'⟩
    · exact Or.inl (h1.trans h2)
    · exact Or.inl (h2 ▸ h1)
    · exact Or.inl (h1 ▸ h2)
    · exact Or.inr ⟨h1.trans h2, h1'.trans h2'⟩⟩

/-- Decorate each event with its sort key, in retrieval order; the first
`int()` failure aborts (Python computes all keys before sorting). -/
def mapKeys : List Event → Except PyErr (List ((ℤ × ℤ) × Event))
  | [] => .ok []
  | e :: tl => do
    let k ← keyOf e
    let r ← mapKeys tl
    .ok ((k, e) :: r)

/-- The ordering used by both recompute and day view: stable sort by
`(parse_hhmm(startTime), int(order or 999999))` ascending. -/
def sortEvents (evs : List Event) : Except PyErr (List Event) :=
  (mapKeys evs).map (fun keyed => (List.insertionSort keyedLe keyed).map Prod.snd)

/-! ## Routing Client numeric core (src/app/maps_service.py lines 60-66) -/

/-- Python 3 `round(x)`: round half to even, over the exact rational. -/
def pyRound (q : ℚ) : ℤ :=
  if q - ⌊q⌋ < 1 / 2 then ⌊q⌋
  else if 1 / 2 < q - ⌊q⌋ then ⌊q⌋ + 1
  else if Even ⌊q⌋ then ⌊q⌋ else ⌊q⌋ + 1

/-- Python `round(x, 2)` over the exact rational value of `x`. -/
def pyRound2 (q : ℚ) : ℚ := (pyRound (q * 100) : ℚ) / 100

/-- One provider route object, over the two fields the field mask requests:
`distanceMeters` (defaulted to 0 when absent) and `duration` (a string such
as `"123s"`, defaulted to `"0s"`). -/
structure RouteLeg where
  distanceMeters : ℚ
  duration : String
deriving DecidableEq, Repr

/-- Numeric core of `compute_route_minutes_km`:
`seconds = int(duration.replace("s", ""))`;
`minutes = max(1, round(seconds / 60))`;
`km = round(distanceMeters / 1000, 2)`. -/
def compute_route_minutes_km (leg : RouteLeg) : Except PyErr (ℤ × ℚ) := do
  let seconds ← pyInt (leg.duration.data.filter (fun c => c ≠ 's'))
  .ok (max 1 (pyRound ((seconds : ℚ) / 60)), pyRound2 (leg.distanceMeters / 1000))

/-! ## Itinerary Engine (src/app/events_router.py lines 22-120) -/

/-- The external routing call, as the engine sees it: coordinates to
coordinates, returning `(minutes, km)` or raising. -/
abbrev RouteFn := (ℚ × ℚ) → (ℚ × ℚ) → Except PyErr (ℤ × ℚ)

/-- The in-memory venue map, keyed by the event's (optional) venue
reference: `venues.get(ev.get("venueId"))`. -/
abbrev VenueLookup := Option String → Option Venue

/-- A logistics write: `(event id, written sub-record)`. -/
abbrev Write := String × Logistics

/-- A routing invocation: `(origin, destination)` coordinate pairs. -/
abbrev Call := (ℚ × ℚ) × (ℚ × ℚ)

/-- Lookup followed by Python truthiness (`if not cur_venue ...`): an absent
key and an empty document are both falsy. -/
def truthyVenue : Option Venue → Option Venue
  | none => none
  | some v => if v.truthy then some v else none

/-- One non-terminal iteration of the recalc loop (events_router.py lines
67-109): decide among the missing-venue, ungeocoded-venue and computed
outcomes.  Returns the routing calls issued together with either the
logistics to write or the uncaught routing exception. -/
def stepNonTerminal (route : RouteFn) (lookup : VenueLookup) (ts : String)
    (ev next : Event) : List Call × Except PyErr Logistics :=
  match truthyVenue (lookup ev.venueId), truthyVenue (lookup next.venueId) with
  | some cv, some nv =>
    match cv.lat, cv.lng, nv.lat, nv.lng with
    | some clat, some clng, some nlat, some nlng =>
      let origin := (clat, clng)
      let dest := (nlat, nlng)
      match route origin dest with
      | .ok (minutes, km) =>
        ([(origin, dest)],
          .ok { toNextKm := some km, toNextMinutes := some minutes,
                toNextVenueId := next.venueId, toNextUpdatedAt := some ts,
                error := none })
      | .error e => ([(origin, dest)], .error e)
    | _, _, _, _ =>
      ([], .ok { toNextKm := none, toNextMinutes := none,
                 toNextVenueId := next.venueId, toNextUpdatedAt := some ts,
                 error := some "Venue sem lat/lng (geocodifique os locais)" })
  | _, _ =>
    ([], .ok { toNextKm := none, toNextMinutes := none,
               toNextVenueId := next.venueId, toNextUpdatedAt := some ts,
               error := some "Venue não encontrado" })

/-- The per-event write loop of `recalc_logistics` (events_router.py lines
51-109), over the already ordered events.  Returns the logistics writes that
reached the store (in order), the routing calls issued, and the uncaught
routing exception if the loop aborted. -/
def recalcLoop (route : RouteFn) (lookup : VenueLookup) (ts : String) :
    List Event → List Write × List Call × Option PyErr
  | [] => ([], [], none)
  | [ev] =>
    ([(ev.id, { toNextKm := none, toNextMinutes := none, toNextVenueId := none,
                toNextUpdatedAt := some ts, error := none })], [], none)
  | ev :: next :: rest =>
    match stepNonTerminal route lookup ts ev next with
    | (cs, .error e) => ([], cs, some e)
    | (cs, .ok lg) =>
      let r := recalcLoop route lookup ts (next :: rest)
      ((ev.id, lg) :: r.1, cs ++ r.2.1, r.2.2)

/-- Venue preloading (events_router.py lines 44-49): the map holds exactly
the truthy venue references cited by the day's events that exist in the
store; `venues.get` on anything else yields None. -/
def preloadVenues (store : String → Option Venue) (evs : List Event) : VenueLookup :=
  fun k =>
    match k with
    | none => none
    | some vid =>
      if vid ≠ "" && evs.any (fun e => e.venueId == some vid) then store vid else none

/-- Sorting, venue preloading and the write loop of one recompute: the body
of `recalc_logistics` between the event query and the summary (events_router
lines 41-109).  An `int()` `ValueError` from the sort key escapes as the
`Except` error. -/
def recalcCore (route : RouteFn) (store : String → Option Venue) (ts : String)
    (events : List Event) : Except PyErr (List Write × List Call × Option PyErr) :=
  (sortEvents events).map
    (fun sorted => recalcLoop route (preloadVenues store sorted) ts sorted)

/-! ## Credential check (src/firebase_admin_client.py lines 28-38) -/

/-- A decoded identity token. -/
structure Decoded where
  uid : Option String
deriving DecidableEq, Repr

/-- Python `str.lower()` on one character, over the ASCII range the header
check needs. -/
def pyLowerChar (c : Char) : Char :=
  if 'A' ≤ c ∧ c ≤ 'Z' then Char.ofNat (c.toNat + 32) else c

/-- Python `str.lower()`. -/
def pyLower (l : List Char) : List Char := l.map pyLowerChar

/-- The whitespace class Python `str.strip()` removes. -/
def pyIsSpace (c : Char) : Bool :=
  c = ' ' || c = '\t' || c = '\n' || c = '\r'

/-- Python `str.strip()`. -/
def pyStrip (l : List Char) : List Char :=
  ((l.dropWhile pyIsSpace).reverse.dropWhile pyIsSpace).reverse

/-- `verify_bearer_token`.  The external `auth.verify_id_token` is the
parameter `idVerify`.  Modelled from the spec: the external identity
verifier is the collaborator that rejects an invalid credential; its
rejection carries the error class the recalc handler maps to 401. -/
def verify_bearer_token (idVerify : String → Except PyErr Decoded) :
    Option String → Except PyErr Decoded
  | none => .error (.valueErr "Authorization ausente.")
  | some a =>
    if a = "" then .error (.valueErr "Authorization ausente.")
    else
      match splitFirstSpace a.data with
      | [p0, p1] =>
        if pyLower p0 = "bearer".data then idVerify (String.mk (pyStrip p1))
        else .error (.valueErr "Authorization inválido. Use: Bearer <token>")
      | _ => .error (.valueErr "Authorization inválido. Use: Bearer <token>")

/-! ## Recompute endpoint (src/app/events_router.py lines 22-120) -/

/-- The HTTP outcome of the recalc endpoint: the 200 summary
`{ok, date, updated, eventsCount}` or an HTTPException status. -/
inductive HttpResult where
  | ok (date : String) (updated : ℕ) (eventsCount : ℕ)
  | err (code : ℕ) (detail : String)
deriving DecidableEq, Repr

/-- The exception handler at the bottom of `recalc_logistics` (lines
114-120): `ValueError` becomes 401, any other exception becomes 500. -/
def handleErr : PyErr → HttpResult
  | .valueErr m => .err 401 m
  | .otherErr m => .err 500 m

/-- The `recalc_logistics` endpoint: verify the credential, sort the day's
events, preload venues, run the write loop, return the summary.  The store
query results, the router and the verifier are the external collaborators,
passed as functions; `ts` stands for the wall clock.  Returns the HTTP
outcome together with the logistics writes that reached the store. -/
def recalc_logistics (idVerify : String → Except PyErr Decoded)
    (store : String → Option Venue) (route : RouteFn) (ts : String)
    (authorization : Option String) (date : String) (events : List Event) :
    HttpResult × List Write :=
  match verify_bearer_token idVerify authorization with
  | .error e => (handleErr e, [])
  | .ok _ =>
    match recalcCore route store ts events with
    | .error e => (handleErr e, [])
    | .ok (ws, _, some e) => (handleErr e, ws)
    | .ok (ws, _, none) => (.ok date ws.length events.length, ws)

/-! ## Day view alert derivation (src/logistics_router.py lines 51-85) -/

/-- The alert for one non-terminal event of the day view (lines 64-73):
`end_m = parse_hhmm(endTime) or (parse_hhmm(startTime) + 60)`;
`window = max(0, parse_hhmm(next.startTime) - end_m)`; an alert string is
produced iff the stored `toNextMinutes` is non-null and exceeds the window. -/
def alertFor (ev next : Event) : Except PyErr (Option String) :=
  match parse_hhmm (ev.endTime.getD "") with
  | .error e => .error e
  | .ok pe =>
    match (if pe ≠ 0 then Except.ok pe
           else (parse_hhmm (ev.startTime.getD "")).map (· + 60)) with
    | .error e => .error e
    | .ok end_m =>
      match parse_hhmm (next.startTime.getD "") with
      | .error e => .error e
      | .ok next_start =>
        match ev.logistics.bind Logistics.toNextMinutes with
        | none => .ok none
        | some m =>
          if max 0 (next_start - end_m) < m then
            .ok (some ("⚠️ Janela " ++ toString (max 0 (next_start - end_m))
              ++ " min < deslocamento " ++ toString m ++ " min (risco de atraso)"))
          else .ok none

/-- The alert column of the day-logistics response, over the sorted events:
each event except the last is compared against its successor; the last
event's alert stays None. -/
def dayAlerts : List Event → Except PyErr (List (Option String))
  | [] => .ok []
  | [_] => .ok [none]
  | ev :: next :: rest => do
    let a ← alertFor ev next
    let tl ← dayAlerts (next :: rest)
    .ok (a :: tl)

/-! ## Store semantics helpers -/

/-- The day's events after a list of logistics writes has been applied:
each written event carries the written sub-record, everything else is
untouched. -/
def applyWrites (ws : List Write) (evs : List Event) : List Event :=
  evs.map (fun e =>
    match ws.find? (fun w => w.1 == e.id) with
    | some w => { e with logistics := some w.2 }
    | none => e)

/-- Everything a recompute reads from an event: all fields except the
logistics sub-record it overwrites. -/
def scrub (e : Event) : Event := { e with logistics := none }

/-- A written record with the wall-clock field blanked, for comparing two
recomputes modulo the updated-at timestamp. -/
def eraseTs (lg : Logistics) : Logistics := { lg with toNextUpdatedAt := none }

/-- Blank the timestamps of a whole write list. -/
def eraseTsW (ws : List Write) : List Write :=
  ws.map (fun w => (w.1, eraseTs w.2))

/-- Blank the timestamps across a full `recalcCore` outcome. -/
def eraseTsCore : Except PyErr (List Write × List Call × Option PyErr) →
    Except PyErr (List Write × List Call × Option PyErr)
  | .error e => .error e
  | .ok (ws, cs, ab) => .ok (eraseTsW ws, cs, ab)

/-- The writes a `recalcCore` outcome performed (none if the sort raised). -/
def writesOf : Except PyErr (List Write × List Call × Option PyErr) → List Write
  | .error _ => []
  | .ok (ws, _, _) => ws

/-! ## Statement-side helpers -/

/-- The value `_parse_hhmm` would return, defaulted to 0 on a raise; used
only in statements whose hypotheses ensure the parse succeeded. -/
def parseD (s : String) : ℤ := ((parse_hhmm s).toOption).getD 0

/-- Total sort key of an event, for stating sortedness and stability; in the
theorems about `sortEvents` every event's key is known to parse, where this
agrees with `keyOf`. -/
def keyOfD (e : Event) : ℤ × ℤ := ((keyOf e).toOption).getD (0, 0)

/-- The current event's end minute as the day view actually computes it:
the parsed endTime unless that value is 0 (endTime absent, unparsable as two
segments, or equal to "00:00"), in which case startTime + 60. -/
def codeCurrentEnd (ev : Event) : ℤ :=
  let pe := parseD (ev.endTime.getD "")
  if pe ≠ 0 then pe else parseD (ev.startTime.getD "") + 60

/-- The transfer window the day view compares against: the code's end
minute against the successor's start. -/
def codeWindow (ev next : Event) : ℤ :=
  max 0 (parseD (next.startTime.getD "") - codeCurrentEnd ev)

/-- The current event's end minute as the claim words it: parsed endTime
when endTime is present, startTime + 60 only when endTime is absent. -/
def specCurrentEnd (ev : Event) : ℤ :=
  match ev.endTime with
  | some e => parseD e
  | none => parseD (ev.startTime.getD "") + 60

/-- The claim's window formula `max(0, nextStart - currentEnd)` with the
claim's reading of currentEnd. -/
def specWindow (ev next : Event) : ℤ :=
  max 0 (parseD (next.startTime.getD "") - specCurrentEnd ev)

/-- Key-preserving scrub of a keyed event, used to relate a recompute run
to the run over the scrubbed day. -/
def keyMapScrub (p : (ℤ × ℤ) × Event) : (ℤ × ℤ) × Event := (p.1, scrub p.2)

/-! ## Concrete fixtures for witnesses, examples and counterexamples -/

/-- Minimal event constructor for fixtures. -/
def mkEv (i : String) (st et : Option String) (o : OrderField)
    (vid : Option String) (lg : Option Logistics) : Event :=
  { id := i, date := some "2024-05-01", title := none, status := none,
    startTime := st, endTime := et, order := o, venueId := vid,
    bandId := none, logistics := lg }

/-- Claim C5's example: start 10:00 with order 2. -/
def exEv1 : Event := mkEv "a" (some "10:00") none (.num 2) none none

/-- Claim C5's example: start 10:00 with order 1. -/
def exEv2 : Event := mkEv "b" (some "10:00") none (.num 1) none none

/-- Claim C5's example: start 09:00 with no order. -/
def exEv3 : Event := mkEv "c" (some "09:00") none .absent none none

/-- An event whose `order` field is not int-coercible. -/
def badOrderEv : Event := mkEv "bad" (some "10:00") none .bad none none

/-- Day-view fixture: ends 20:00, stored leg of 25 minutes. -/
def wAlert1 : Event := mkEv "a" (some "19:00") (some "20:00") .absent none
  (some { toNextKm := some 5, toNextMinutes := some 25,
          toNextVenueId := some "v2", toNextUpdatedAt := some "T", error := none })

/-- Day-view fixture: the successor starting 20:10. -/
def wAlert2 : Event := mkEv "b" (some "20:10") none .absent none none

/-- Day-view fixture for the C1 counterexample: starts 23:00, endTime
"00:00" (present, well-formed, parsing to 0), stored leg of 45 minutes. -/
def cexMidnight1 : Event := mkEv "a" (some "23:00") (some "00:00") .absent none
  (some { toNextKm := some 30, toNextMinutes := some 45,
          toNextVenueId := some "v2", toNextUpdatedAt := some "T", error := none })

/-- Day-view fixture: the successor starting 23:50. -/
def cexMidnight2 : Event := mkEv "b" (some "23:50") none .absent none none

/-- Engine fixture: two events referencing unresolved venues. -/
def wEv1 : Event := mkEv "e1" (some "10:00") none .absent (some "vMissing") none

/-- Engine fixture: successor event, also with an unresolved venue. -/
def wEv2 : Event := mkEv "e2" (some "11:00") none .absent (some "vMissing2") none

/-- Engine fixture: event at a geocoded venue. -/
def gEv1 : Event := mkEv "g1" (some "10:00") none .absent (some "va") none

/-- Engine fixture: successor at another geocoded venue. -/
def gEv2 : Event := mkEv "g2" (some "11:00") none .absent (some "vb") none

/-- A geocoded venue. -/
def venueA : Venue := { name := some "A", address := some "Rua A", lat := some 1, lng := some 2 }

/-- Another geocoded venue. -/
def venueB : Venue := { name := some "B", address := some "Rua B", lat := some 3, lng := some 4 }

/-- A venue store holding the two geocoded venues. -/
def storeAB : String → Option Venue :=
  fun vid => if vid = "va" then some venueA else if vid = "vb" then some venueB else none

/-- A router that always answers (7 minutes, 5 km). -/
def okRoute : RouteFn := fun _ _ => .ok (7, 5)

/-- A router that always raises a provider fault (RuntimeError). -/
def failRoute : RouteFn := fun _ _ => .error (.otherErr "Falha Routes API (403)")

/-- An identity verifier that accepts every token. -/
def okVerify : String → Except PyErr Decoded := fun _ => .ok { uid := some "u1" }

/-! ## Rounding lemmas -/

theorem pyRound_dist (q : ℚ) : |(pyRound q : ℚ) - q| ≤ 1 / 2 := by
  have h0 : (⌊q⌋ : ℚ) ≤ q := Int.floor_le q
  have h1 : q < ⌊q⌋ + 1 := Int.lt_floor_add_one q
  unfold pyRound
  split_ifs with a b c <;> (rw [abs_le]; push_cast; constructor <;> linarith)

theorem pyRound2_dist (q : ℚ) : |pyRound2 q - q| ≤ 1 / 200 := by
  have h := pyRound_dist (q * 100)
  unfold pyRound2
  rw [abs_le] at h ⊢
  constructor <;> [linarith [h.1]; linarith [h.2]]

theorem pyRound_low (z : ℤ) (q : ℚ) (h1 : (z : ℚ) ≤ q) (h2 : q < (z : ℚ) + 1 / 2) :
    pyRound q = z := by
  have hf : ⌊q⌋ = z := Int.floor_eq_iff.mpr ⟨h1, by linarith⟩
  unfold pyRound
  rw [hf, if_pos (by linarith)]

theorem compute_example_10s :
    compute_route_minutes_km { distanceMeters := 10000, duration := "10s" } = .ok (1, 10) := by
  have hint : pyInt (("10s" : String).data.filter (fun c => c ≠ 's')) = .ok 10 := by decide
  unfold compute_route_minutes_km
  rw [show ({ distanceMeters := 10000, duration := "10s" } : RouteLeg).duration = "10s" from rfl,
    hint]
  have hr1 : pyRound ((10 : ℚ) / 60) = 0 := pyRound_low 0 _ (by norm_num) (by norm_num)
  have hr2 : pyRound ((10000 : ℚ) / 1000 * 100) = 1000 := pyRound_low 1000 _ (by norm_num) (by norm_num)
  show Except.ok ((max 1 (pyRound (((10 : ℤ) : ℚ) / 60)),
    pyRound2 (((10000 : ℚ)) / 1000)) : ℤ × ℚ) = _
  rw [show (((10 : ℤ) : ℚ)) = (10 : ℚ) by norm_num, hr1]
  unfold pyRound2
  rw [hr2]
  norm_num

/-! ## Claim C2 -/

/-- C2: every successful provider-response conversion yields minutes that
are a nearest-integer rounding of seconds/60 floored at a minimum of 1
(hence always ≥ 1, and "10s" yields 1), and kilometres that are
meters/1000 rounded to 2 decimal places (an integer number of hundredths
within 1/200 of the exact quotient). -/
theorem C2_route_conversion (leg : RouteLeg) (mins : ℤ) (km : ℚ)
    (h : compute_route_minutes_km leg = .ok (mins, km)) :
    1 ≤ mins
    ∧ (∃ s r : ℤ, pyInt (leg.duration.data.filter (fun c => c ≠ 's')) = .ok s
        ∧ mins = max 1 r ∧ |(r : ℚ) * 60 - (s : ℚ)| ≤ 30)
    ∧ (∃ z : ℤ, km = (z : ℚ) / 100
        ∧ |km - leg.distanceMeters / 1000| ≤ 1 / 200)
    ∧ compute_route_minutes_km { distanceMeters := 10000, duration := "10s" }
        = .ok (1, 10) := by
  unfold compute_route_minutes_km at h
  cases hs : pyInt (leg.duration.data.filter (fun c => c ≠ 's')) with
  | error e =>
    rw [hs] at h
    exact Except.noConfusion h
  | ok s =>
    rw [hs] at h
    have h' : Except.ok ((max 1 (pyRound ((s : ℚ) / 60)),
        pyRound2 (leg.distanceMeters / 1000)) : ℤ × ℚ) = Except.ok (mins, km) := h
    have hpair := Except.ok.inj h'
    have hmins : mins = max 1 (pyRound ((s : ℚ) / 60)) := (congrArg Prod.fst hpair).symm
    have hkm : km = pyRound2 (leg.distanceMeters / 1000) := (congrArg Prod.snd hpair).symm
    refine ⟨by rw [hmins]; exact le_max_left _ _,
      ⟨s, pyRound ((s : ℚ) / 60), rfl, hmins, ?_⟩,
      ⟨pyRound (leg.distanceMeters / 1000 * 100), by rw [hkm]; rfl, ?_⟩,
      compute_example_10s⟩
    · have hd := pyRound_dist ((s : ℚ) / 60)
      rw [abs_le] at hd ⊢
      constructor <;> [linarith [hd.1]; linarith [hd.2]]
    · rw [hkm]; exact pyRound2_dist _

/-! ## Split lemmas for the Time Parser -/

theorem splitOnChar_ne_nil (sep : Char) (l : List Char) : splitOnChar sep l ≠ [] := by
  induction l with
  | nil => simp [splitOnChar]
  | cons c cs ih =>
    simp only [splitOnChar]
    by_cases h : c = sep
    · simp [h]
    · rw [if_neg h]
      cases hr : splitOnChar sep cs with
      | nil => exact absurd hr ih
      | cons a t => simp

theorem length_splitOnChar (sep : Char) (l : List Char) :
    (splitOnChar sep l).length = l.count sep + 1 := by
  induction l with
  | nil => simp [splitOnChar]
  | cons c cs ih =>
    simp only [splitOnChar]
    by_cases h : c = sep
    · subst h
      simp [List.count_cons, ih]
    · rw [if_neg h]
      cases hr : splitOnChar sep cs with
      | nil => exact absurd hr (splitOnChar_ne_nil sep cs)
      | cons a t =>
        rw [hr] at ih
        simp only [List.length_cons] at ih ⊢
        rw [List.count_cons]
        simp [h, ih]

/-- Witness for C2 at the provider response distance 10000 m, duration
"10s". -/
theorem C2_route_conversion_witness :
    1 ≤ (1 : ℤ)
    ∧ (∃ s r : ℤ,
        pyInt ((({ distanceMeters := 10000, duration := "10s" } : RouteLeg)).duration.data.filter
          (fun c => c ≠ 's')) = .ok s
        ∧ (1 : ℤ) = max 1 r ∧ |(r : ℚ) * 60 - (s : ℚ)| ≤ 30)
    ∧ (∃ z : ℤ, (10 : ℚ) = (z : ℚ) / 100
        ∧ |(10 : ℚ) - ({ distanceMeters := 10000, duration := "10s" } : RouteLeg).distanceMeters / 1000| ≤ 1 / 200)
    ∧ compute_route_minutes_km { distanceMeters := 10000, duration := "10s" }
        = .ok (1, 10) :=
  C2_route_conversion { distanceMeters := 10000, duration := "10s" } 1 10 compute_example_10s

/-! ## Claim C6 -/

/-- C6 (amended): `_parse_hhmm` returns 0 for every input whose colon count
is not exactly one (empty strings, single segments, non-colon strings,
three-or-more-segment strings) and `h*60 + m` whenever the string splits
into exactly two int-parsable segments; "09:30" gives 570 and "23:59"
gives 1439.  It is, however, not total: see the counterexample. -/
theorem C6_parse_hhmm_amended :
    (∀ s : List Char, s.count ':' ≠ 1 → _parse_hhmm s = .ok 0)
    ∧ (∀ (s p0 p1 : List Char) (h m : ℤ),
        splitOnChar ':' s = [p0, p1] → pyInt p0 = .ok h → pyInt p1 = .ok m →
        _parse_hhmm s = .ok (h * 60 + m))
    ∧ parse_hhmm "09:30" = .ok 570 ∧ parse_hhmm "23:59" = .ok 1439 := by
  refine ⟨?_, ?_, by decide, by decide⟩
  · intro s hcount
    by_cases hnil : s = []
    · rw [hnil]; rfl
    · have hlen : (splitOnChar ':' s).length ≠ 2 := by
        rw [length_splitOnChar]
        omega
      unfold _parse_hhmm
      rw [if_neg hnil]
      cases hsp : splitOnChar ':' s with
      | nil => rfl
      | cons a t =>
        cases t with
        | nil => rfl
        | cons b t2 =>
          cases t2 with
          | nil => exact absurd (by rw [hsp]; rfl) hlen
          | cons c t3 => rfl
  · intro s p0 p1 h m hsp hp0 hp1
    have hnil : s ≠ [] := by
      intro he
      rw [he] at hsp
      exact List.noConfusion (List.cons.inj hsp).2
    unfold _parse_hhmm
    rw [if_neg hnil, hsp]
    show Except.bind (pyInt p0) _ = _
    rw [hp0]
    show Except.bind (pyInt p1) _ = _
    rw [hp1]
    rfl

/-- Counterexample to C6 as stated: `"ab:cd"` has exactly one colon but
non-numeric segments, so `parse_hhmm` raises a `ValueError` instead of
returning a value — the function is not total. -/
theorem C6_counterexample :
    parse_hhmm "ab:cd" = .error (.valueErr "invalid literal for int() with base 10") := by
  decide

/-- Witness for C6 on the single-segment input "abc". -/
theorem C6_parse_hhmm_amended_witness : _parse_hhmm "abc".data = .ok 0 :=
  C6_parse_hhmm_amended.1 "abc".data (by decide)

/-! ## Sorting lemmas -/

theorem tupLe_refl (a : ℤ × ℤ) : tupLe a a := Or.inr ⟨rfl, le_refl _⟩

theorem fst_ne_of_not_keyedLe {a b : (ℤ × ℤ) × Event} (h : ¬ keyedLe a b) : b.1 ≠ a.1 := by
  intro he
  exact h (show tupLe a.1 b.1 by rw [he]; exact tupLe_refl a.1)

theorem filter_orderedInsert_key (k : ℤ × ℤ) (a : (ℤ × ℤ) × Event)
    (l : List ((ℤ × ℤ) × Event)) :
    (List.orderedInsert keyedLe a l).filter (fun p => decide (p.1 = k))
      = if a.1 = k then a :: l.filter (fun p => decide (p.1 = k))
        else l.filter (fun p => decide (p.1 = k)) := by
  induction l with
  | nil =>
    by_cases h : a.1 = k <;> simp [List.orderedInsert, List.filter, h]
  | cons b t ih =>
    simp only [List.orderedInsert]
    by_cases hle : keyedLe a b
    · rw [if_pos hle, List.filter_cons, List.filter_cons]
      by_cases hak : a.1 = k <;> by_cases hbk : b.1 = k <;>
        simp [hak, hbk, List.filter_cons]
    · rw [if_neg hle, List.filter_cons, ih]
      have hbne : b.1 ≠ a.1 := fst_ne_of_not_keyedLe hle
      by_cases hak : a.1 = k
      · have hbk : ¬ b.1 = k := by rw [← hak] at *; exact hbne
        simp [hak, hbk, List.filter_cons]
      · by_cases hbk : b.1 = k <;> simp [hak, hbk, List.filter_cons]

theorem filter_insertionSort_key (k : ℤ × ℤ) (l : List ((ℤ × ℤ) × Event)) :
    (List.insertionSort keyedLe l).filter (fun p => decide (p.1 = k))
      = l.filter (fun p => decide (p.1 = k)) := by
  induction l with
  | nil => rfl
  | cons a t ih =>
    simp only [List.insertionSort]
    rw [filter_orderedInsert_key, ih, List.filter_cons]
    by_cases hak : a.1 = k <;> simp [hak]

theorem mapKeys_ok (evs : List Event) (keyed : List ((ℤ × ℤ) × Event))
    (h : mapKeys evs = .ok keyed) :
    keyed.map Prod.snd = evs ∧ ∀ p ∈ keyed, keyOf p.2 = .ok p.1 := by
  induction evs generalizing keyed with
  | nil =>
    have h' : Except.ok ([] : List ((ℤ × ℤ) × Event)) = .ok keyed := h
    obtain rfl := (Except.ok.inj h').symm
    exact ⟨rfl, by intro p hp; cases hp⟩
  | cons e tl ih =>
    unfold mapKeys at h
    cases hk : keyOf e with
    | error err => rw [hk] at h; exact Except.noConfusion h
    | ok ke =>
      rw [hk] at h
      cases hm : mapKeys tl with
      | error err =>
        rw [hm] at h
        exact Except.noConfusion h
      | ok rtl =>
        rw [hm] at h
        have h' : Except.ok ((ke, e) :: rtl) = .ok keyed := h
        obtain rfl := (Except.ok.inj h').symm
        obtain ⟨ih1, ih2⟩ := ih rtl hm
        constructor
        · simp [ih1]
        · intro p hp
          rcases List.mem_cons.mp hp with hp | hp
          · rw [hp]; exact hk
          · exact ih2 p hp

/-! ## Claim C5 -/

/-- C5 (amended): the shared ordering sorts ascending by the key
`(parse_hhmm(startTime), int(order))` where a missing order defaults to
999999, it is stable (events with equal keys keep their retrieval order,
expressed as filter-invariance per key), and the claim's three-event
example sorts as stated; however an order value that is present but not
int-coercible raises instead of defaulting (see the counterexample). -/
theorem C5_ordering_amended :
    (∀ (evs sorted : List Event), sortEvents evs = .ok sorted →
       sorted.Perm evs
       ∧ sorted.Sorted (fun a b => tupLe (keyOfD a) (keyOfD b))
       ∧ ∀ k : ℤ × ℤ, sorted.filter (fun e => decide (keyOfD e = k))
            = evs.filter (fun e => decide (keyOfD e = k)))
    ∧ orderKey .absent = .ok 999999
    ∧ sortEvents [exEv1, exEv2, exEv3] = .ok [exEv3, exEv2, exEv1] := by
  refine ⟨?_, rfl, by decide⟩
  intro evs sorted hs
  unfold sortEvents at hs
  cases hm : mapKeys evs with
  | error e => rw [hm] at hs; exact Except.noConfusion hs
  | ok keyed =>
    rw [hm] at hs
    have hsorted : sorted = (List.insertionSort keyedLe keyed).map Prod.snd :=
      (Except.ok.inj hs).symm
    obtain ⟨hmap, hkeys⟩ := mapKeys_ok evs keyed hm
    have hkeyD : ∀ p ∈ keyed, keyOfD p.2 = p.1 := by
      intro p hp
      unfold keyOfD
      rw [hkeys p hp]
      rfl
    subst hsorted
    refine ⟨?_, ?_, ?_⟩
    · have h1 : List.Perm ((List.insertionSort keyedLe keyed).map Prod.snd)
          (keyed.map Prod.snd) :=
        (List.perm_insertionSort keyedLe keyed).map Prod.snd
      rw [hmap] at h1
      exact h1
    · have hs2 : (List.insertionSort keyedLe keyed).Sorted keyedLe :=
        List.sorted_insertionSort keyedLe keyed
      rw [List.Sorted, List.pairwise_map]
      refine List.Pairwise.imp_of_mem ?_ hs2
      intro p q hp hq hpq
      have hp' : p ∈ keyed := (List.mem_insertionSort keyedLe).mp hp
      have hq' : q ∈ keyed := (List.mem_insertionSort keyedLe).mp hq
      rw [hkeyD p hp', hkeyD q hq']
      exact hpq
    · intro k
      calc ((List.insertionSort keyedLe keyed).map Prod.snd).filter
              (fun e => decide (keyOfD e = k))
          = ((List.insertionSort keyedLe keyed).filter
              ((fun e => decide (keyOfD e = k)) ∘ Prod.snd)).map Prod.snd :=
            List.filter_map _ _
        _ = ((List.insertionSort keyedLe keyed).filter
              (fun p => decide (p.1 = k))).map Prod.snd := by
            congr 1
            refine List.filter_congr ?_
            intro p hp
            have hp' := (List.mem_insertionSort keyedLe).mp hp
            simp [Function.comp, hkeyD p hp']
        _ = (keyed.filter (fun p => decide (p.1 = k))).map Prod.snd := by
            rw [filter_insertionSort_key]
        _ = (keyed.filter ((fun e => decide (keyOfD e = k)) ∘ Prod.snd)).map Prod.snd := by
            congr 1
            refine (List.filter_congr ?_).symm
            intro p hp
            simp [Function.comp, hkeyD p hp]
        _ = (keyed.map Prod.snd).filter (fun e => decide (keyOfD e = k)) :=
            (List.filter_map _ _).symm
        _ = evs.filter (fun e => decide (keyOfD e = k)) := by rw [hmap]

/-- Counterexample to C5 as stated: an event whose `order` field is present
but not int-coercible makes the sort raise `ValueError` instead of
defaulting the key to 999999. -/
theorem C5_counterexample :
    sortEvents [badOrderEv] = .error (.valueErr "invalid literal for int() with base 10") := by
  decide

/-- Witness for C5 on the claim's three-event example. -/
theorem C5_ordering_amended_witness :
    ([exEv3, exEv2, exEv1] : List Event).Perm [exEv1, exEv2, exEv3] :=
  (C5_ordering_amended.1 [exEv1, exEv2, exEv3] [exEv3, exEv2, exEv1] (by decide)).1

/-! ## Recalc loop lemmas -/

theorem recalcLoop_step_error (route : RouteFn) (lookup : VenueLookup) (ts : String)
    (ev next : Event) (rest : List Event) (cs : List Call) (e : PyErr)
    (h : stepNonTerminal route lookup ts ev next = (cs, .error e)) :
    recalcLoop route lookup ts (ev :: next :: rest) = ([], cs, some e) := by
  unfold recalcLoop
  rw [h]

theorem recalcLoop_step_ok (route : RouteFn) (lookup : VenueLookup) (ts : String)
    (ev next : Event) (rest : List Event) (cs : List Call) (lg : Logistics)
    (h : stepNonTerminal route lookup ts ev next = (cs, .ok lg)) :
    recalcLoop route lookup ts (ev :: next :: rest)
      = ((ev.id, lg) :: (recalcLoop route lookup ts (next :: rest)).1,
         cs ++ (recalcLoop route lookup ts (next :: rest)).2.1,
         (recalcLoop route lookup ts (next :: rest)).2.2) := by
  conv_lhs => unfold recalcLoop
  rw [h]

theorem stepNonTerminal_missing (route : RouteFn) (lookup : VenueLookup) (ts : String)
    (ev next : Event)
    (h : truthyVenue (lookup ev.venueId) = none ∨ truthyVenue (lookup next.venueId) = none) :
    stepNonTerminal route lookup ts ev next
      = ([], .ok { toNextKm := none, toNextMinutes := none,
                   toNextVenueId := next.venueId, toNextUpdatedAt := some ts,
                   error := some "Venue não encontrado" }) := by
  unfold stepNonTerminal
  rcases h with h | h
  · rw [h]
  · rw [h]
    cases truthyVenue (lookup ev.venueId) <;> rfl

theorem recalcLoop_length (route : RouteFn) (lookup : VenueLookup) (ts : String) :
    ∀ evs : List Event, (recalcLoop route lookup ts evs).2.2 = none →
      (recalcLoop route lookup ts evs).1.length = evs.length
  | [] => fun _ => rfl
  | [_] => fun _ => rfl
  | ev :: next :: rest => by
    intro h
    cases hstep : stepNonTerminal route lookup ts ev next with
    | mk cs r =>
      cases r with
      | error e =>
        rw [recalcLoop_step_error route lookup ts ev next rest cs e hstep] at h
        exact Option.noConfusion h
      | ok lg =>
        rw [recalcLoop_step_ok route lookup ts ev next rest cs lg hstep] at h ⊢
        have h' : (recalcLoop route lookup ts (next :: rest)).2.2 = none := h
        simp only [List.length_cons]
        rw [recalcLoop_length route lookup ts (next :: rest) h']
        rfl

theorem recalcLoop_last (route : RouteFn) (lookup : VenueLookup) (ts : String) :
    ∀ evs : List Event, (recalcLoop route lookup ts evs).2.2 = none → evs ≠ [] →
      (recalcLoop route lookup ts evs).1.getLast?
        = (evs.getLast?).map (fun ev =>
            (ev.id, { toNextKm := none, toNextMinutes := none, toNextVenueId := none,
                      toNextUpdatedAt := some ts, error := none }))
  | [] => fun _ h => absurd rfl h
  | [_] => fun _ _ => rfl
  | ev :: next :: rest => by
    intro h _
    cases hstep : stepNonTerminal route lookup ts ev next with
    | mk cs r =>
      cases r with
      | error e =>
        rw [recalcLoop_step_error route lookup ts ev next rest cs e hstep] at h
        exact Option.noConfusion h
      | ok lg =>
        rw [recalcLoop_step_ok route lookup ts ev next rest cs lg hstep] at h ⊢
        have h' : (recalcLoop route lookup ts (next :: rest)).2.2 = none := h
        have hlen := recalcLoop_length route lookup ts (next :: rest) h'
        have hne : (recalcLoop route lookup ts (next :: rest)).1 ≠ [] := by
          intro hnil
          rw [hnil] at hlen
          simp at hlen
        obtain ⟨w, ws, hws⟩ := List.exists_cons_of_ne_nil hne
        show ((ev.id, lg) :: (recalcLoop route lookup ts (next :: rest)).1).getLast? = _
        rw [hws, List.getLast?_cons_cons, ← hws, List.getLast?_cons_cons]
        exact recalcLoop_last route lookup ts (next :: rest) h' (by simp)

/-! ## Claim C3 -/

/-- C3: the loop writes the last event of the order a logistics record with
all three leg fields null, no error key, and the timestamp set; a
single-event day yields exactly that one terminal write, no routing calls,
and a null alert in the day view. -/
theorem C3_terminal :
    (∀ (route : RouteFn) (lookup : VenueLookup) (ts : String) (ev : Event),
       recalcLoop route lookup ts [ev]
         = ([(ev.id, { toNextKm := none, toNextMinutes := none, toNextVenueId := none,
                       toNextUpdatedAt := some ts, error := none })], [], none)
       ∧ dayAlerts [ev] = .ok [none])
    ∧ (∀ (route : RouteFn) (lookup : VenueLookup) (ts : String) (evs : List Event),
        (recalcLoop route lookup ts evs).2.2 = none → evs ≠ [] →
        (recalcLoop route lookup ts evs).1.getLast?
          = (evs.getLast?).map (fun ev =>
              (ev.id, { toNextKm := none, toNextMinutes := none, toNextVenueId := none,
                        toNextUpdatedAt := some ts, error := none }))) :=
  ⟨fun _ _ _ _ => ⟨rfl, rfl⟩, fun route lookup ts evs => recalcLoop_last route lookup ts evs⟩

/-- Witness for C3 over a two-event day with unresolved venues. -/
theorem C3_terminal_witness :
    (recalcLoop okRoute (fun _ => none) "T" [wEv1, wEv2]).1.getLast?
      = (([wEv1, wEv2] : List Event).getLast?).map (fun ev =>
          (ev.id, { toNextKm := none, toNextMinutes := none, toNextVenueId := none,
                    toNextUpdatedAt := some "T", error := none })) :=
  C3_terminal.2 okRoute (fun _ => none) "T" [wEv1, wEv2] (by decide) (by simp)

/-! ## Claim C4 -/

/-- C4: when the current or the next event's venue reference fails to
resolve in the venue map, the event is written null km and minutes, the
next event's (unresolved) venue reference, the timestamp, and the
venue-not-found error string; no routing call is issued for that event and
the loop continues with the rest of the day. -/
theorem C4_missing_venue (route : RouteFn) (lookup : VenueLookup) (ts : String)
    (ev next : Event) (rest : List Event)
    (h : lookup ev.venueId = none ∨ lookup next.venueId = none) :
    recalcLoop route lookup ts (ev :: next :: rest)
      = ((ev.id, { toNextKm := none, toNextMinutes := none,
                   toNextVenueId := next.venueId, toNextUpdatedAt := some ts,
                   error := some "Venue não encontrado" })
           :: (recalcLoop route lookup ts (next :: rest)).1,
         (recalcLoop route lookup ts (next :: rest)).2.1,
         (recalcLoop route lookup ts (next :: rest)).2.2) := by
  have hstep := stepNonTerminal_missing route lookup ts ev next (by
    rcases h with h | h
    · exact Or.inl (by rw [h]; rfl)
    · exact Or.inr (by rw [h]; rfl))
  rw [recalcLoop_step_ok route lookup ts ev next rest _ _ hstep, List.nil_append]

/-- Witness for C4 on a concrete day whose venues are absent from the
store. -/
theorem C4_missing_venue_witness :
    recalcLoop okRoute (fun _ => none) "T" [wEv1, wEv2]
      = ((wEv1.id, { toNextKm := none, toNextMinutes := none,
                     toNextVenueId := wEv2.venueId, toNextUpdatedAt := some "T",
                     error := some "Venue não encontrado" })
           :: (recalcLoop okRoute (fun _ => none) "T" [wEv2]).1,
         (recalcLoop okRoute (fun _ => none) "T" [wEv2]).2.1,
         (recalcLoop okRoute (fun _ => none) "T" [wEv2]).2.2) :=
  C4_missing_venue okRoute (fun _ => none) "T" wEv1 wEv2 [] (Or.inl rfl)

/-! ## Fault propagation lemmas -/

theorem stepNonTerminal_spec (route : RouteFn) (lookup : VenueLookup) (ts : String)
    (ev next : Event) :
    (∃ lg, stepNonTerminal route lookup ts ev next = ([], Except.ok lg))
    ∨ (∃ o d v, route o d = .ok v
        ∧ stepNonTerminal route lookup ts ev next
            = ([(o, d)], .ok { toNextKm := some v.2, toNextMinutes := some v.1,
                               toNextVenueId := next.venueId, toNextUpdatedAt := some ts,
                               error := none }))
    ∨ (∃ o d e, route o d = .error e
        ∧ stepNonTerminal route lookup ts ev next = ([(o, d)], .error e)) := by
  unfold stepNonTerminal
  split
  · split
    · dsimp only
      split
      · next mins km heq =>
          exact Or.inr (Or.inl ⟨_, _, (mins, km), heq, rfl⟩)
      · next e heq =>
          exact Or.inr (Or.inr ⟨_, _, e, heq, rfl⟩)
    · exact Or.inl ⟨_, rfl⟩
  · exact Or.inl ⟨_, rfl⟩

theorem stepNonTerminal_ok_of_total (route : RouteFn) (lookup : VenueLookup) (ts : String)
    (ev next : Event) (hroute : ∀ o d, ∃ v, route o d = .ok v) :
    ∃ cs lg, stepNonTerminal route lookup ts ev next = (cs, .ok lg) := by
  rcases stepNonTerminal_spec route lookup ts ev next with
    ⟨lg, he⟩ | ⟨o, d, v, _, he⟩ | ⟨o, d, e, hr, _⟩
  · exact ⟨_, _, he⟩
  · exact ⟨_, _, he⟩
  · obtain ⟨v, hv⟩ := hroute o d
    rw [hv] at hr
    exact Except.noConfusion hr

theorem stepNonTerminal_error_route (route : RouteFn) (lookup : VenueLookup) (ts : String)
    (ev next : Event) (e : PyErr)
    (h : (stepNonTerminal route lookup ts ev next).2 = .error e) :
    ∃ o d, (stepNonTerminal route lookup ts ev next).1 = [(o, d)] ∧ route o d = .error e := by
  rcases stepNonTerminal_spec route lookup ts ev next with
    ⟨lg, he⟩ | ⟨o, d, v, _, he⟩ | ⟨o, d, e2, hr, he⟩
  · rw [he] at h
    exact Except.noConfusion h
  · rw [he] at h
    exact Except.noConfusion h
  · rw [he] at h
    have h' : Except.error e2 = Except.error e := h
    obtain rfl : e2 = e := Except.error.inj h'
    exact ⟨o, d, by rw [he], hr⟩

theorem recalcLoop_total (route : RouteFn) (lookup : VenueLookup) (ts : String)
    (hroute : ∀ o d, ∃ v, route o d = .ok v) :
    ∀ evs : List Event, (recalcLoop route lookup ts evs).2.2 = none
      ∧ (recalcLoop route lookup ts evs).1.map Prod.fst = evs.map Event.id
  | [] => ⟨rfl, rfl⟩
  | [_] => ⟨rfl, rfl⟩
  | ev :: next :: rest => by
    obtain ⟨cs, lg, hstep⟩ := stepNonTerminal_ok_of_total route lookup ts ev next hroute
    obtain ⟨ih1, ih2⟩ := recalcLoop_total route lookup ts hroute (next :: rest)
    rw [recalcLoop_step_ok route lookup ts ev next rest cs lg hstep]
    exact ⟨ih1, by simp only [List.map_cons]; rw [ih2]; rfl⟩

theorem recalcLoop_abort_prefix (route : RouteFn) (lookup : VenueLookup) (ts : String) :
    ∀ (evs : List Event) (e : PyErr), (recalcLoop route lookup ts evs).2.2 = some e →
      (recalcLoop route lookup ts evs).1.map Prod.fst
        = (evs.map Event.id).take (recalcLoop route lookup ts evs).1.length
      ∧ (recalcLoop route lookup ts evs).1.length < evs.length
  | [], _ => fun h => Option.noConfusion h
  | [_], _ => fun h => Option.noConfusion h
  | ev :: next :: rest, e => fun h => by
    cases hstep : stepNonTerminal route lookup ts ev next with
    | mk cs r =>
      cases r with
      | error e2 =>
        rw [recalcLoop_step_error route lookup ts ev next rest cs e2 hstep]
        exact ⟨rfl, by simp⟩
      | ok lg =>
        rw [recalcLoop_step_ok route lookup ts ev next rest cs lg hstep] at h ⊢
        have h' : (recalcLoop route lookup ts (next :: rest)).2.2 = some e := h
        obtain ⟨ih1, ih2⟩ := recalcLoop_abort_prefix route lookup ts (next :: rest) e h'
        constructor
        · simp only [List.map_cons, List.length_cons, List.take_succ_cons]
          exact congrArg (List.cons ev.id) ih1
        · have ha : (next :: rest).length = rest.length + 1 := rfl
          simp only [List.length_cons]
          omega

/-! ## Claim C7 -/

/-- C7: a router that never throws lets the loop reach every event of the
day (missing-venue and ungeocoded-venue states are recorded, not raised);
the write-loop result can only carry an exception that the router itself
raised on an issued call; and when it does, the writes performed are exactly
the events strictly before the failing one, in order, leaving the rest of
the day untouched. -/
theorem C7_fault_propagation :
    (∀ (route : RouteFn) (lookup : VenueLookup) (ts : String) (evs : List Event),
       (∀ o d, ∃ v, route o d = Except.ok v) →
       (recalcLoop route lookup ts evs).2.2 = none
       ∧ (recalcLoop route lookup ts evs).1.map Prod.fst = evs.map Event.id)
    ∧ (∀ (route : RouteFn) (lookup : VenueLookup) (ts : String) (ev next : Event) (e : PyErr),
        (stepNonTerminal route lookup ts ev next).2 = .error e →
        ∃ o d, (stepNonTerminal route lookup ts ev next).1 = [(o, d)] ∧ route o d = .error e)
    ∧ (∀ (route : RouteFn) (lookup : VenueLookup) (ts : String) (evs : List Event) (e : PyErr),
        (recalcLoop route lookup ts evs).2.2 = some e →
        (recalcLoop route lookup ts evs).1.map Prod.fst
          = (evs.map Event.id).take (recalcLoop route lookup ts evs).1.length
        ∧ (recalcLoop route lookup ts evs).1.length < evs.length) :=
  ⟨fun route lookup ts evs h => recalcLoop_total route lookup ts h evs,
   stepNonTerminal_error_route,
   fun route lookup ts evs => recalcLoop_abort_prefix route lookup ts evs⟩

/-- Witness for C7: a total router completes a day with missing venues; a
faulting router aborts the geocoded day with a strict prefix written. -/
theorem C7_fault_propagation_witness :
    ((recalcLoop okRoute (fun _ => none) "T" [wEv1, wEv2]).2.2 = none
      ∧ (recalcLoop okRoute (fun _ => none) "T" [wEv1, wEv2]).1.map Prod.fst
          = ([wEv1, wEv2] : List Event).map Event.id)
    ∧ ((recalcLoop failRoute (preloadVenues storeAB [gEv1, gEv2]) "T" [gEv1, gEv2]).1.map Prod.fst
        = (([gEv1, gEv2] : List Event).map Event.id).take
            (recalcLoop failRoute (preloadVenues storeAB [gEv1, gEv2]) "T" [gEv1, gEv2]).1.length
      ∧ (recalcLoop failRoute (preloadVenues storeAB [gEv1, gEv2]) "T" [gEv1, gEv2]).1.length
          < ([gEv1, gEv2] : List Event).length) :=
  ⟨C7_fault_propagation.1 okRoute (fun _ => none) "T" [wEv1, wEv2]
      (fun _ _ => ⟨(7, 5), rfl⟩),
   C7_fault_propagation.2.2 failRoute (preloadVenues storeAB [gEv1, gEv2]) "T" [gEv1, gEv2]
      (.otherErr "Falha Routes API (403)") (by decide)⟩

/-! ## Endpoint lemmas -/

theorem sortEvents_length (evs sorted : List Event) (h : sortEvents evs = .ok sorted) :
    sorted.length = evs.length := by
  unfold sortEvents at h
  cases hm : mapKeys evs with
  | error e => rw [hm] at h; exact Except.noConfusion h
  | ok keyed =>
    rw [hm] at h
    have hsorted : sorted = (List.insertionSort keyedLe keyed).map Prod.snd :=
      (Except.ok.inj h).symm
    obtain ⟨hmap, _⟩ := mapKeys_ok evs keyed hm
    rw [hsorted, List.length_map, List.length_insertionSort, ← hmap, List.length_map]

theorem recalcCore_ok_length (route : RouteFn) (store : String → Option Venue) (ts : String)
    (evs : List Event) (ws : List Write) (cls : List Call)
    (h : recalcCore route store ts evs = .ok (ws, cls, none)) :
    ws.length = evs.length := by
  unfold recalcCore at h
  cases hs : sortEvents evs with
  | error e => rw [hs] at h; exact Except.noConfusion h
  | ok sorted =>
    rw [hs] at h
    have h' : Except.ok (recalcLoop route (preloadVenues store sorted) ts sorted)
        = Except.ok ((ws, cls, none) : List Write × List Call × Option PyErr) := h
    have heq := Except.ok.inj h'
    have hab : (recalcLoop route (preloadVenues store sorted) ts sorted).2.2 = none := by
      rw [heq]
    have hws : (recalcLoop route (preloadVenues store sorted) ts sorted).1 = ws := by
      rw [heq]
    rw [← hws, recalcLoop_length _ _ _ _ hab, sortEvents_length evs sorted hs]

/-! ## Claim C10 -/

/-- C10: whenever the recompute endpoint answers 200, the `updated` counter
equals `eventsCount` — each event of the day received exactly one logistics
write. -/
theorem C10_updated_equals_count (idVerify : String → Except PyErr Decoded)
    (store : String → Option Venue) (route : RouteFn) (ts : String)
    (auth : Option String) (date : String) (evs : List Event)
    (d : String) (u c : ℕ)
    (h : (recalc_logistics idVerify store route ts auth date evs).1 = .ok d u c) :
    u = c := by
  unfold recalc_logistics at h
  cases hv : verify_bearer_token idVerify auth with
  | error e =>
    rw [hv] at h
    cases e <;> exact HttpResult.noConfusion h
  | ok dec =>
    rw [hv] at h
    cases hc : recalcCore route store ts evs with
    | error e =>
      rw [hc] at h
      cases e <;> exact HttpResult.noConfusion h
    | ok triple =>
      obtain ⟨ws, cls, ab⟩ := triple
      rw [hc] at h
      cases ab with
      | some e =>
        cases e <;> exact HttpResult.noConfusion h
      | none =>
        have h' : HttpResult.ok date ws.length evs.length = .ok d u c := h
        injection h' with h1 h2 h3
        rw [← h2, ← h3]
        exact recalcCore_ok_length route store ts evs ws cls hc

/-- Witness for C10: a two-event day of unresolved venues updates 2 of 2. -/
theorem C10_updated_equals_count_witness : (2 : ℕ) = 2 :=
  C10_updated_equals_count okVerify storeAB okRoute "T" (some "Bearer tok")
    "2024-05-01" [wEv1, wEv2] "2024-05-01" 2 2 (by decide)

/-! ## Claim C9 -/

/-- C9 (amended): the recompute endpoint maps a missing or empty
Authorization header, any credential rejection raised as `ValueError`
(missing/malformed/invalid token), and also any body-raised `ValueError`
(e.g. a non-int-coercible order field in the sort key) to HTTP 401; a
routing-client fault (`RuntimeError`) to HTTP 500; and a completed run to
200 with `{ok, date, updated, eventsCount}`. -/
theorem C9_http_amended :
    (∀ (idVerify : String → Except PyErr Decoded) (store : String → Option Venue)
       (route : RouteFn) (ts date : String) (evs : List Event) (auth : Option String),
       (auth = none ∨ auth = some "") →
       (recalc_logistics idVerify store route ts auth date evs).1
         = .err 401 "Authorization ausente.")
    ∧ (∀ (idVerify : String → Except PyErr Decoded) (store : String → Option Venue)
        (route : RouteFn) (ts date : String) (evs : List Event) (auth : Option String)
        (m : String),
        verify_bearer_token idVerify auth = .error (.valueErr m) →
        (recalc_logistics idVerify store route ts auth date evs).1 = .err 401 m)
    ∧ (∀ (idVerify : String → Except PyErr Decoded) (store : String → Option Venue)
        (route : RouteFn) (ts date : String) (evs : List Event) (auth : Option String)
        (dec : Decoded) (m : String),
        verify_bearer_token idVerify auth = .ok dec →
        recalcCore route store ts evs = .error (.valueErr m) →
        (recalc_logistics idVerify store route ts auth date evs).1 = .err 401 m)
    ∧ (∀ (idVerify : String → Except PyErr Decoded) (store : String → Option Venue)
        (route : RouteFn) (ts date : String) (evs : List Event) (auth : Option String)
        (dec : Decoded) (ws : List Write) (cls : List Call) (m : String),
        verify_bearer_token idVerify auth = .ok dec →
        recalcCore route store ts evs = .ok (ws, cls, some (.otherErr m)) →
        (recalc_logistics idVerify store route ts auth date evs).1 = .err 500 m)
    ∧ (∀ (idVerify : String → Except PyErr Decoded) (store : String → Option Venue)
        (route : RouteFn) (ts date : String) (evs : List Event) (auth : Option String)
        (dec : Decoded) (ws : List Write) (cls : List Call),
        verify_bearer_token idVerify auth = .ok dec →
        recalcCore route store ts evs = .ok (ws, cls, none) →
        (recalc_logistics idVerify store route ts auth date evs).1
          = .ok date ws.length evs.length) := by
  refine ⟨?_, ?_, ?_, ?_, ?_⟩
  · intro idVerify store route ts date evs auth hauth
    rcases hauth with rfl | rfl <;> rfl
  · intro idVerify store route ts date evs auth m hv
    unfold recalc_logistics
    rw [hv]
    rfl
  · intro idVerify store route ts date evs auth dec m hv hc
    unfold recalc_logistics
    rw [hv, hc]
    rfl
  · intro idVerify store route ts date evs auth dec ws cls m hv hc
    unfold recalc_logistics
    rw [hv, hc]
    rfl
  · intro idVerify store route ts date evs auth dec ws cls hv hc
    unfold recalc_logistics
    rw [hv, hc]

/-- Counterexample to C9 as stated: with a valid credential, a day holding
an event whose `order` field is not int-coercible raises `ValueError` in
the sort key, and the handler maps this non-credential fault to 401, not
500. -/
theorem C9_counterexample :
    (recalc_logistics okVerify (fun _ => none) okRoute "T" (some "Bearer tok")
        "2024-05-01" [badOrderEv]).1
      = .err 401 "invalid literal for int() with base 10" := by
  decide

/-- Witness for C9 on a missing Authorization header. -/
theorem C9_http_amended_witness :
    (recalc_logistics okVerify storeAB okRoute "T" none "2024-05-01" []).1
      = .err 401 "Authorization ausente." :=
  C9_http_amended.1 okVerify storeAB okRoute "T" "2024-05-01" [] none (Or.inl rfl)

/-! ## Day-view alert lemmas -/

theorem parseD_eq (s : String) (v : ℤ) (h : parse_hhmm s = .ok v) : parseD s = v := by
  unfold parseD
  rw [h]
  rfl

theorem codeCurrentEnd_eq (ev : Event) (pe end_m : ℤ)
    (hpe : parse_hhmm (ev.endTime.getD "") = .ok pe)
    (hend : (if pe ≠ 0 then Except.ok pe
             else (parse_hhmm (ev.startTime.getD "")).map (· + 60))
        = (.ok end_m : Except PyErr ℤ)) :
    codeCurrentEnd ev = end_m := by
  unfold codeCurrentEnd
  rw [parseD_eq _ _ hpe]
  by_cases hz : pe ≠ 0
  · rw [if_pos hz] at hend ⊢
    exact Except.ok.inj hend
  · rw [if_neg hz] at hend ⊢
    cases hps : parse_hhmm (ev.startTime.getD "") with
    | error e => rw [hps] at hend; exact Except.noConfusion hend
    | ok ps =>
      rw [hps] at hend
      have : ps + 60 = end_m := Except.ok.inj hend
      rw [parseD_eq _ _ hps, this]

theorem alertFor_spec (ev next : Event) (a : Option String)
    (h : alertFor ev next = .ok a) :
    (a.isSome = true ↔ ∃ m : ℤ, ev.logistics.bind Logistics.toNextMinutes = some m
      ∧ codeWindow ev next < m) := by
  unfold alertFor at h
  split at h
  · exact Except.noConfusion h
  · next pe hpe =>
    split at h
    · exact Except.noConfusion h
    · next end_m hend =>
      split at h
      · exact Except.noConfusion h
      · next ns hns =>
        have hcw : codeWindow ev next = max 0 (ns - end_m) := by
          unfold codeWindow
          rw [parseD_eq _ _ hns, codeCurrentEnd_eq ev pe end_m hpe hend]
        split at h
        · next hm =>
          obtain rfl : (none : Option String) = a := Except.ok.inj h
          simp [hm]
        · next m hm =>
          by_cases hw : max 0 (ns - end_m) < m
          · rw [if_pos hw] at h
            obtain rfl := Except.ok.inj h
            simp only [Option.isSome_some, true_iff]
            exact ⟨m, hm, by rw [hcw]; exact hw⟩
          · rw [if_neg hw] at h
            obtain rfl : (none : Option String) = a := Except.ok.inj h
            simp only [Option.isSome_none, Bool.false_eq_true, false_iff]
            rintro ⟨m2, hm2, hw2⟩
            rw [hm] at hm2
            obtain rfl : m = m2 := Option.some.inj hm2
            rw [hcw] at hw2
            exact hw hw2

theorem dayAlerts_length : ∀ (evs : List Event) (out : List (Option String)),
    dayAlerts evs = .ok out → out.length = evs.length
  | [], out => fun h => by
    have h' : Except.ok ([] : List (Option String)) = .ok out := h
    rw [← Except.ok.inj h']
    rfl
  | [_], out => fun h => by
    have h' : Except.ok [(none : Option String)] = .ok out := h
    rw [← Except.ok.inj h']
    rfl
  | ev :: next :: rest, out => fun h => by
    unfold dayAlerts at h
    cases ha : alertFor ev next with
    | error e => rw [ha] at h; exact Except.noConfusion h
    | ok a =>
      rw [ha] at h
      cases ht : dayAlerts (next :: rest) with
      | error e => rw [ht] at h; exact Except.noConfusion h
      | ok tl =>
        rw [ht] at h
        have h' : Except.ok (a :: tl) = .ok out := h
        rw [← Except.ok.inj h']
        have hlen := dayAlerts_length (next :: rest) tl ht
        simp only [List.length_cons]
        rw [hlen]
        rfl

theorem dayAlerts_last : ∀ (evs : List Event) (out : List (Option String)),
    dayAlerts evs = .ok out → out = [] ∨ out.getLast? = some none
  | [], out => fun h => by
    have h' : Except.ok ([] : List (Option String)) = .ok out := h
    exact Or.inl (Except.ok.inj h').symm
  | [_], out => fun h => by
    have h' : Except.ok [(none : Option String)] = .ok out := h
    refine Or.inr ?_
    rw [← Except.ok.inj h']
    rfl
  | ev :: next :: rest, out => fun h => by
    unfold dayAlerts at h
    cases ha : alertFor ev next with
    | error e => rw [ha] at h; exact Except.noConfusion h
    | ok a =>
      rw [ha] at h
      cases ht : dayAlerts (next :: rest) with
      | error e => rw [ht] at h; exact Except.noConfusion h
      | ok tl =>
        rw [ht] at h
        have h' : Except.ok (a :: tl) = .ok out := h
        rw [← Except.ok.inj h']
        rcases dayAlerts_last (next :: rest) tl ht with h1 | h1
        · have hlen := dayAlerts_length (next :: rest) tl ht
          rw [h1] at hlen
          exact absurd hlen.symm (by simp)
        · cases tl with
          | nil => exact Option.noConfusion h1
          | cons b bt =>
            refine Or.inr ?_
            rw [List.getLast?_cons_cons]
            exact h1

/-! ## Claim C1 -/

/-- C1 (amended): in the day view, a non-terminal event carries an alert
iff its stored `toNextMinutes` is non-null and strictly exceeds
`max(0, nextStart - currentEnd)`, where currentEnd is the parsed endTime
when that value is non-zero and `startTime + 60` otherwise (endTime absent,
unparsable, or equal to "00:00"); the last event of the day never carries
an alert. -/
theorem C1_alert_amended :
    (∀ (ev next : Event) (rest : List Event) (a : Option String)
       (tl : List (Option String)),
       dayAlerts (ev :: next :: rest) = .ok (a :: tl) →
       (a.isSome = true ↔ ∃ m : ℤ, ev.logistics.bind Logistics.toNextMinutes = some m
          ∧ codeWindow ev next < m))
    ∧ (∀ (evs : List Event) (out : List (Option String)),
        dayAlerts evs = .ok out → out = [] ∨ out.getLast? = some none) := by
  constructor
  · intro ev next rest a tl h
    unfold dayAlerts at h
    cases ha : alertFor ev next with
    | error e => rw [ha] at h; exact Except.noConfusion h
    | ok a' =>
      rw [ha] at h
      cases ht : dayAlerts (next :: rest) with
      | error e => rw [ht] at h; exact Except.noConfusion h
      | ok tl' =>
        rw [ht] at h
        have h' : Except.ok (a' :: tl') = .ok (a :: tl) := h
        obtain rfl : a' = a := (List.cons.inj (Except.ok.inj h')).1
        exact alertFor_spec ev next a' ha
  · exact dayAlerts_last

/-- Counterexample to C1 as stated: the event ends at "00:00" (endTime
present and well-formed), so the claim's window is
max(0, 1430 - 0) = 1430 and no alert should fire for a 45-minute leg; the
code falls back to startTime + 60 because `parse_hhmm("00:00") or ...` is
falsy, computes window 0, and emits the alert. -/
theorem C1_counterexample :
    dayAlerts [cexMidnight1, cexMidnight2]
        = .ok [some "⚠️ Janela 0 min < deslocamento 45 min (risco de atraso)", none]
    ∧ ¬ (specWindow cexMidnight1 cexMidnight2 < 45)
    ∧ cexMidnight1.logistics.bind Logistics.toNextMinutes = some 45
    ∧ cexMidnight1.endTime = some "00:00" := by
  refine ⟨by decide, by decide, by decide, by decide⟩

/-- Witness for C1 on the claim's own example: end 20:00, next start 20:10,
stored leg 25 minutes. -/
theorem C1_alert_amended_witness :
    ∃ m : ℤ, wAlert1.logistics.bind Logistics.toNextMinutes = some m
      ∧ codeWindow wAlert1 wAlert2 < m :=
  (C1_alert_amended.1 wAlert1 wAlert2 []
      (some "⚠️ Janela 10 min < deslocamento 25 min (risco de atraso)") [none]
      (by decide)).mp (by decide)

/-! ## Idempotence lemmas: the recompute reads nothing from `logistics` -/

theorem orderedInsert_keyMapScrub (a : (ℤ × ℤ) × Event) :
    ∀ l : List ((ℤ × ℤ) × Event),
      List.orderedInsert keyedLe (keyMapScrub a) (l.map keyMapScrub)
        = (List.orderedInsert keyedLe a l).map keyMapScrub
  | [] => rfl
  | b :: t => by
    show List.orderedInsert keyedLe (keyMapScrub a) (keyMapScrub b :: t.map keyMapScrub) = _
    rw [List.orderedInsert, List.orderedInsert]
    by_cases h : keyedLe a b
    · rw [if_pos h, if_pos (show keyedLe (keyMapScrub a) (keyMapScrub b) from h)]
      rfl
    · rw [if_neg h, if_neg (show ¬ keyedLe (keyMapScrub a) (keyMapScrub b) from h),
        orderedInsert_keyMapScrub a t]
      rfl

theorem insertionSort_keyMapScrub :
    ∀ l : List ((ℤ × ℤ) × Event),
      List.insertionSort keyedLe (l.map keyMapScrub)
        = (List.insertionSort keyedLe l).map keyMapScrub
  | [] => rfl
  | a :: t => by
    show List.insertionSort keyedLe (keyMapScrub a :: t.map keyMapScrub) = _
    rw [List.insertionSort, List.insertionSort, insertionSort_keyMapScrub t,
      orderedInsert_keyMapScrub a]

theorem mapKeys_map_scrub : ∀ evs : List Event,
    mapKeys (evs.map scrub) = (mapKeys evs).map (List.map keyMapScrub)
  | [] => rfl
  | e :: tl => by
    show mapKeys (scrub e :: tl.map scrub) = _
    unfold mapKeys
    rw [show keyOf (scrub e) = keyOf e from rfl]
    cases hk : keyOf e with
    | error err => rfl
    | ok k =>
      rw [mapKeys_map_scrub tl]
      cases hm : mapKeys tl with
      | error err => rfl
      | ok r => rfl

theorem sortEvents_map_scrub (evs : List Event) :
    sortEvents (evs.map scrub) = (sortEvents evs).map (List.map scrub) := by
  unfold sortEvents
  rw [mapKeys_map_scrub]
  cases mapKeys evs with
  | error e => rfl
  | ok keyed =>
    show Except.ok ((List.insertionSort keyedLe (keyed.map keyMapScrub)).map Prod.snd) = _
    rw [insertionSort_keyMapScrub keyed, List.map_map]
    show Except.ok ((List.insertionSort keyedLe keyed).map (Prod.snd ∘ keyMapScrub))
      = Except.ok (((List.insertionSort keyedLe keyed).map Prod.snd).map scrub)
    rw [List.map_map]
    rfl

theorem preloadVenues_map_scrub (store : String → Option Venue) (l : List Event) :
    preloadVenues store (l.map scrub) = preloadVenues store l := by
  funext k
  unfold preloadVenues
  cases k with
  | none => rfl
  | some vid =>
    simp only [List.any_map]
    rfl

theorem recalcLoop_map_scrub (route : RouteFn) (lookup : VenueLookup) (ts : String) :
    ∀ l : List Event, recalcLoop route lookup ts (l.map scrub) = recalcLoop route lookup ts l
  | [] => rfl
  | [_] => rfl
  | ev :: next :: rest => by
    show recalcLoop route lookup ts (scrub ev :: scrub next :: rest.map scrub) = _
    cases hstep : stepNonTerminal route lookup ts ev next with
    | mk cs r =>
      have hstep' : stepNonTerminal route lookup ts (scrub ev) (scrub next) = (cs, r) := hstep
      cases r with
      | error e =>
        rw [recalcLoop_step_error route lookup ts (scrub ev) (scrub next) (rest.map scrub)
            cs e hstep',
          recalcLoop_step_error route lookup ts ev next rest cs e hstep]
      | ok lg =>
        rw [recalcLoop_step_ok route lookup ts (scrub ev) (scrub next) (rest.map scrub)
            cs lg hstep',
          recalcLoop_step_ok route lookup ts ev next rest cs lg hstep,
          show (scrub next :: rest.map scrub) = (next :: rest).map scrub from rfl,
          recalcLoop_map_scrub route lookup ts (next :: rest)]
        rfl

theorem recalcCore_map_scrub (route : RouteFn) (store : String → Option Venue)
    (ts : String) (evs : List Event) :
    recalcCore route store ts (evs.map scrub) = recalcCore route store ts evs := by
  unfold recalcCore
  rw [sortEvents_map_scrub]
  cases sortEvents evs with
  | error e => rfl
  | ok sorted =>
    show Except.ok (recalcLoop route (preloadVenues store (sorted.map scrub)) ts
        (sorted.map scrub)) = _
    rw [preloadVenues_map_scrub, recalcLoop_map_scrub]
    rfl

theorem stepNonTerminal_ts (route : RouteFn) (lookup : VenueLookup) (ts1 ts2 : String)
    (ev next : Event) :
    stepNonTerminal route lookup ts2 ev next
      = ((stepNonTerminal route lookup ts1 ev next).1,
         (stepNonTerminal route lookup ts1 ev next).2.map
           (fun lg => { lg with toNextUpdatedAt := some ts2 })) := by
  unfold stepNonTerminal
  split
  · split
    · dsimp only
      split <;> rfl
    · rfl
  · rfl

theorem recalcLoop_ts (route : RouteFn) (lookup : VenueLookup) (ts1 ts2 : String) :
    ∀ l : List Event,
      eraseTsW (recalcLoop route lookup ts2 l).1 = eraseTsW (recalcLoop route lookup ts1 l).1
      ∧ (recalcLoop route lookup ts2 l).2 = (recalcLoop route lookup ts1 l).2
  | [] => ⟨rfl, rfl⟩
  | [_] => ⟨rfl, rfl⟩
  | ev :: next :: rest => by
    have hstep := stepNonTerminal_ts route lookup ts1 ts2 ev next
    obtain ⟨ih1, ih2⟩ := recalcLoop_ts route lookup ts1 ts2 (next :: rest)
    cases h1 : stepNonTerminal route lookup ts1 ev next with
    | mk cs1 r1 =>
      rw [h1] at hstep
      cases r1 with
      | error e =>
        rw [recalcLoop_step_error route lookup ts2 ev next rest cs1 e (by rw [hstep]; rfl),
          recalcLoop_step_error route lookup ts1 ev next rest cs1 e h1]
        exact ⟨rfl, rfl⟩
      | ok lg =>
        rw [recalcLoop_step_ok route lookup ts2 ev next rest cs1
            { lg with toNextUpdatedAt := some ts2 } (by rw [hstep]; rfl),
          recalcLoop_step_ok route lookup ts1 ev next rest cs1 lg h1]
        constructor
        · show (ev.id, eraseTs { lg with toNextUpdatedAt := some ts2 })
              :: eraseTsW (recalcLoop route lookup ts2 (next :: rest)).1
            = (ev.id, eraseTs lg) :: eraseTsW (recalcLoop route lookup ts1 (next :: rest)).1
          rw [ih1]
          rfl
        · show (cs1 ++ (recalcLoop route lookup ts2 (next :: rest)).2.1,
              (recalcLoop route lookup ts2 (next :: rest)).2.2)
            = (cs1 ++ (recalcLoop route lookup ts1 (next :: rest)).2.1,
              (recalcLoop route lookup ts1 (next :: rest)).2.2)
          rw [ih2]

theorem recalcCore_ts (route : RouteFn) (store : String → Option Venue)
    (ts1 ts2 : String) (evs : List Event) :
    eraseTsCore (recalcCore route store ts2 evs)
      = eraseTsCore (recalcCore route store ts1 evs) := by
  unfold recalcCore
  cases sortEvents evs with
  | error e => rfl
  | ok sorted =>
    obtain ⟨h1, h2⟩ := recalcLoop_ts route (preloadVenues store sorted) ts1 ts2 sorted
    show eraseTsCore (Except.ok (recalcLoop route (preloadVenues store sorted) ts2 sorted))
      = eraseTsCore (Except.ok (recalcLoop route (preloadVenues store sorted) ts1 sorted))
    cases hl2 : recalcLoop route (preloadVenues store sorted) ts2 sorted with
    | mk ws2 p2 =>
      cases hl1 : recalcLoop route (preloadVenues store sorted) ts1 sorted with
      | mk ws1 p1 =>
        rw [hl1, hl2] at h1 h2
        cases p2 with
        | mk cs2 ab2 =>
          cases p1 with
          | mk cs1 ab1 =>
            have h1' : eraseTsW ws2 = eraseTsW ws1 := h1
            have h2' : ((cs2, ab2) : List Call × Option PyErr) = (cs1, ab1) := h2
            injection h2' with hcs hab
            show Except.ok (eraseTsW ws2, cs2, ab2) = Except.ok (eraseTsW ws1, cs1, ab1)
            rw [h1', hcs, hab]

theorem applyWrites_map_scrub (ws : List Write) (evs : List Event) :
    (applyWrites ws evs).map scrub = evs.map scrub := by
  unfold applyWrites
  rw [List.map_map]
  refine List.map_congr_left ?_
  intro e _
  simp only [Function.comp]
  cases hf : ws.find? (fun w => w.1 == e.id) with
  | none => rfl
  | some w => rfl

/-! ## Claim C8 -/

/-- C8: recompute is idempotent — running the recompute again on the store
state produced by a first run (same events otherwise, same venues, same
router answers) yields the same sort outcome, the same routing calls, the
same abort state and identical logistics writes up to the updated-at
timestamp. -/
theorem C8_idempotent (route : RouteFn) (store : String → Option Venue)
    (ts1 ts2 : String) (evs : List Event) :
    eraseTsCore (recalcCore route store ts2
        (applyWrites (writesOf (recalcCore route store ts1 evs)) evs))
      = eraseTsCore (recalcCore route store ts1 evs) := by
  have h1 : recalcCore route store ts2
      (applyWrites (writesOf (recalcCore route store ts1 evs)) evs)
      = recalcCore route store ts2 evs := by
    conv_lhs => rw [← recalcCore_map_scrub route store ts2 (applyWrites _ evs)]
    rw [applyWrites_map_scrub, recalcCore_map_scrub]
  rw [h1]
  exact recalcCore_ts route store ts1 ts2 evs

end AgendaBanda
